import Mathlib

namespace TGC

/-!
# TGConvertor — verification of the session-format codecs

Shallow embedding of the codecs in `TGConvertor/sessions/{pyro.py, pyro/kuri.py,
tele.py, tdata.py}` and of the relevant parts of `TGConvertor/manager.py`.

Bytes are modelled as `List Nat` (each entry intended `< 256`); Python byte
strings, `struct` packing and URL-safe base64 are translated operation by
operation.  SQLite files are modelled by their schema (table name together
with its column-name list, as `pragma table_info` reports it) plus the single
row the codecs read; a connection failure / `DatabaseError` is the `none`
case of an `Option`.
-/

/-! ## Big-endian integers (the `>` convention of every struct format used) -/

/-- Big-endian bytes of `v`, exactly `w` bytes wide (as `struct` packs
`B`/`H`/`I`/`Q` for an in-range value). -/
def beBytes : Nat → Nat → List Nat
  | 0, _ => []
  | w + 1, v => beBytes w (v / 256) ++ [v % 256]

/-- Value of a big-endian byte string (as `struct` unpacks it). -/
def beVal (bs : List Nat) : Nat := bs.foldl (fun acc b => acc * 256 + b) 0

/-! ## URL-safe base64 (`base64.urlsafe_b64encode` / `urlsafe_b64decode`) -/

/-- The URL-safe base64 alphabet. -/
def b64chars : List Char :=
  ['A', 'B', 'C', 'D', 'E', 'F', 'G', 'H', 'I', 'J', 'K', 'L', 'M',
   'N', 'O', 'P', 'Q', 'R', 'S', 'T', 'U', 'V', 'W', 'X', 'Y', 'Z',
   'a', 'b', 'c', 'd', 'e', 'f', 'g', 'h', 'i', 'j', 'k', 'l', 'm',
   'n', 'o', 'p', 'q', 'r', 's', 't', 'u', 'v', 'w', 'x', 'y', 'z',
   '0', '1', '2', '3', '4', '5', '6', '7', '8', '9', '-', '_']

/-- Character of a 6-bit group. -/
def b64alpha (n : Nat) : Char := b64chars.getD n 'A'

def b64decAux : List Char → Char → Nat → Option Nat
  | [], _, _ => none
  | a :: as, c, i => if a = c then some i else b64decAux as c (i + 1)

/-- 6-bit group of an alphabet character (`none` on a non-alphabet character). -/
def b64dec (c : Char) : Option Nat := b64decAux b64chars c 0

/-- `base64.urlsafe_b64encode`: 3-byte chunks to 4 characters, explicit
`=` padding on a final 1- or 2-byte chunk. -/
def b64e : List Nat → List Char
  | [] => []
  | [a] => [b64alpha (a / 4), b64alpha (a % 4 * 16), '=', '=']
  | [a, b] => [b64alpha (a / 4), b64alpha (a % 4 * 16 + b / 16), b64alpha (b % 16 * 4), '=']
  | a :: b :: c :: rest =>
    b64alpha (a / 4) :: b64alpha (a % 4 * 16 + b / 16) ::
      b64alpha (b % 16 * 4 + c / 64) :: b64alpha (c % 64) :: b64e rest

/-- `base64.urlsafe_b64decode` on a correctly padded string: 4-character
groups to 3 bytes, a final `==`/`=` group to 1/2 bytes.  A malformed string
(bad length, stray character, interior padding) is `none`, modelling the
`binascii` error. -/
def b64d : List Char → Option (List Nat)
  | [] => some []
  | c1 :: c2 :: c3 :: c4 :: rest =>
    if c3 = '=' then
      if c4 = '=' ∧ rest = [] then
        match b64dec c1, b64dec c2 with
        | some v1, some v2 => some [v1 * 4 + v2 / 16]
        | _, _ => none
      else none
    else if c4 = '=' then
      if rest = [] then
        match b64dec c1, b64dec c2, b64dec c3 with
        | some v1, some v2, some v3 => some [v1 * 4 + v2 / 16, v2 % 16 * 16 + v3 / 4]
        | _, _, _ => none
      else none
    else
      match b64dec c1, b64dec c2, b64dec c3, b64dec c4, b64d rest with
      | some v1, some v2, some v3, some v4, some bs =>
        some ((v1 * 4 + v2 / 16) :: (v2 % 16 * 16 + v3 / 4) :: (v3 % 4 * 64 + v4) :: bs)
      | _, _, _, _, _ => none
  | _ => none

/-- Python `.rstrip("=")`. -/
def stripEq : List Char → List Char
  | [] => []
  | c :: cs =>
    match stripEq cs with
    | [] => if c = '=' then [] else [c]
    | l => c :: l

/-- Python `s + "=" * (-len(s) % 4)`, the re-padding both Pyrogram decoders
apply before `urlsafe_b64decode`. -/
def pyPad (s : List Char) : List Char :=
  s ++ List.replicate ((4 - s.length % 4) % 4) '='

/-! ## The subset of the `struct` module the codecs use

Format codes appearing in the sources: `B` (u8), `?` (bool byte), `I` (u32),
`Q` (u64), `H` (u16) and `{n}s` (fixed byte string, silently padded with NUL
or truncated to `n` on pack), always with the big-endian `>` prefix. -/

inductive SField
  | u8
  | boolByte
  | str (n : Nat)
  | u32
  | u64
  | u16
deriving DecidableEq

def fieldSize : SField → Nat
  | .u8 => 1
  | .boolByte => 1
  | .str n => n
  | .u32 => 4
  | .u64 => 8
  | .u16 => 2

/-- `struct.calcsize` for a format list. -/
def structCalcsize (fmt : List SField) : Nat := (fmt.map fieldSize).sum

inductive SVal
  | num (n : Nat)
  | bool (b : Bool)
  | bytes (bs : List Nat)
deriving DecidableEq

/-- `struct.pack` of one field: range errors on out-of-range integers,
NUL padding / truncation on `{n}s` (exactly as CPython behaves). -/
def packField : SField → SVal → Option (List Nat)
  | .u8, .num n => if n < 256 then some [n] else none
  | .boolByte, .bool b => some [if b then 1 else 0]
  | .str n, .bytes bs => some (bs.take n ++ List.replicate (n - (bs.take n).length) 0)
  | .u32, .num n => if n < 2 ^ 32 then some (beBytes 4 n) else none
  | .u64, .num n => if n < 2 ^ 64 then some (beBytes 8 n) else none
  | .u16, .num n => if n < 2 ^ 16 then some (beBytes 2 n) else none
  | _, _ => none

def packFields : List SField → List SVal → Option (List Nat)
  | [], [] => some []
  | f :: fs, v :: vs =>
    match packField f v, packFields fs vs with
    | some bsf, some rest => some (bsf ++ rest)
    | _, _ => none
  | _, _ => none

/-- Value read back by `struct.unpack` for one field from its byte prefix. -/
def sValOf (f : SField) (bs : List Nat) : SVal :=
  match f with
  | .u8 => .num (bs.headD 0)
  | .boolByte => .bool (bs.headD 0 != 0)
  | .str n => .bytes (bs.take n)
  | .u32 => .num (beVal (bs.take 4))
  | .u64 => .num (beVal (bs.take 8))
  | .u16 => .num (beVal (bs.take 2))

/-- `struct.unpack`: requires the buffer length to match `calcsize` exactly
(the trailing `[] ↦ isEmpty` check), else raises `struct.error` (`none`). -/
def unpackFields : List SField → List Nat → Option (List SVal)
  | [], bs => if bs.isEmpty then some [] else none
  | f :: fs, bs =>
    if fieldSize f ≤ bs.length then
      match unpackFields fs (bs.drop (fieldSize f)) with
      | some vs => some (sValOf f (bs.take (fieldSize f)) :: vs)
      | none => none
    else none

/-- The padded/truncated-`{n}s` hypothesis under which pack is injective:
every byte-string value has exactly the declared width. -/
def sizedVals : List SField → List SVal → Prop
  | .str n :: fs, .bytes k :: vs => k.length = n ∧ sizedVals fs vs
  | _ :: fs, _ :: vs => sizedVals fs vs
  | _, _ => True

/-! ## `PyroSession` — pyrogram backend (`TGConvertor/sessions/pyro.py`) -/

/-- Format `>B?256sI?`: dc_id, test_mode, auth_key, 32-bit user_id, is_bot. -/
def OLD_STRING_FORMAT : List SField :=
  [.u8, .boolByte, .str 256, .u32, .boolByte]

/-- Format `>B?256sQ?`: dc_id, test_mode, auth_key, 64-bit user_id, is_bot. -/
def OLD_STRING_FORMAT_64 : List SField :=
  [.u8, .boolByte, .str 256, .u64, .boolByte]

/-- Format `>BI?256sQ?`: dc_id, api_id, test_mode, auth_key, user_id, is_bot. -/
def STRING_FORMAT : List SField :=
  [.u8, .u32, .boolByte, .str 256, .u64, .boolByte]

/-- The fields `PyroSession.__init__` stores (it accepts and discards a
`date` argument, which is therefore not part of the record). -/
structure PyroRec where
  dc_id : Nat
  auth_key : List Nat
  user_id : Option Nat
  is_bot : Bool
  test_mode : Bool
  api_id : Option Nat
deriving DecidableEq

inductive PErr
  /-- `binascii.Error` out of `urlsafe_b64decode`. -/
  | badBase64
  /-- The `ValidationError` raised by `from_string` for an unknown decoded
  length; it carries the observed length in its message. -/
  | unexpectedLength (observed : Nat)
  /-- `struct.error` out of `struct.unpack` / `struct.pack`. -/
  | structError
  /-- The `ValidationError` raised by `from_file` when `validate` fails. -/
  | validation
deriving DecidableEq

/-- `PyroSession.from_string` (pyrogram backend): re-pad, base64-decode,
dispatch on the *decoded* byte length against the three `calcsize` values,
otherwise raise a `ValidationError` reporting the decoded length. -/
def pyroFromString (s : List Char) : Except PErr PyroRec :=
  match b64d (pyPad s) with
  | none => .error .badBase64
  | some bs =>
    if bs.length = structCalcsize OLD_STRING_FORMAT then
      match unpackFields OLD_STRING_FORMAT bs with
      | some [.num dc, .bool tm, .bytes key, .num uid, .bool ib] =>
        .ok ⟨dc, key, some uid, ib, tm, none⟩
      | _ => .error .structError
    else if bs.length = structCalcsize OLD_STRING_FORMAT_64 then
      match unpackFields OLD_STRING_FORMAT_64 bs with
      | some [.num dc, .bool tm, .bytes key, .num uid, .bool ib] =>
        .ok ⟨dc, key, some uid, ib, tm, none⟩
      | _ => .error .structError
    else if bs.length = structCalcsize STRING_FORMAT then
      match unpackFields STRING_FORMAT bs with
      | some [.num dc, .num api, .bool tm, .bytes key, .num uid, .bool ib] =>
        .ok ⟨dc, key, some uid, ib, tm, some api⟩
      | _ => .error .structError
    else .error (.unexpectedLength bs.length)

/-- `PyroSession.to_string`: always packs the current `>BI?256sQ?` layout,
with `self.api_id or 0` and `self.user_id or 0` (both `None` and `0` pack
as `0`), then base64-encodes and strips the padding. -/
def pyroToString (r : PyroRec) : Option (List Char) :=
  (packFields STRING_FORMAT
      [.num r.dc_id, .num (r.api_id.getD 0), .bool r.test_mode,
       .bytes r.auth_key, .num (r.user_id.getD 0), .bool r.is_bot]).map
    fun packed => stripEq (b64e packed)

/-- `from_string` after `to_string`, for the round-trip properties. -/
def pyroRoundtrip (r : PyroRec) : Option (Except PErr PyroRec) :=
  (pyroToString r).map pyroFromString

/-! ### Variant-A session files (`validate` / `from_file` / `to_file`) -/

/-- A relational file's structure: for each table, its name and the column
names `pragma table_info` reports. -/
def DbSchema := List (String × List String)

def tableNames (schema : DbSchema) : List String :=
  schema.map (·.1)

def schemaCols (schema : DbSchema) (t : String) : List String :=
  ((schema.find? fun p => p.1 == t).map (·.2)).getD []

/-- Python `set(xs) == set(ys)` on name lists. -/
def listSetEq (xs ys : List String) : Bool :=
  xs.all (fun x => ys.contains x) && ys.all (fun y => xs.contains y)

/-- `PyroSession.TABLES` of the pyrogram backend: the expected table set and
per-table column sets. -/
def pyroTABLES : List (String × List String) :=
  [("sessions", ["dc_id", "api_id", "test_mode", "auth_key", "date", "user_id", "is_bot"]),
   ("peers", ["id", "access_hash", "type", "username", "phone_number", "last_update_on"]),
   ("version", ["number"])]

/-- Schema part of `PyroSession.validate`: table-name set equality, then
column-name set equality for every expected table. -/
def pyroValidateSchema (schema : DbSchema) : Bool :=
  listSetEq (tableNames schema) (tableNames pyroTABLES) &&
    pyroTABLES.all fun p => listSetEq p.2 (schemaCols schema p.1)

/-- The single `sessions` row `from_file` reads (`SELECT * FROM sessions`);
the stored `date` column is passed to `__init__`, which discards it. -/
structure SessionsRowA where
  dc_id : Nat
  api_id : Option Nat
  test_mode : Bool
  auth_key : List Nat
  date : Nat
  user_id : Option Nat
  is_bot : Bool
deriving DecidableEq

/-- A variant-A session file: its schema and its `sessions` row.  `none`
models a path that is not a readable database (`aiosqlite.DatabaseError`),
on which `validate` returns `False`. -/
structure PyroDbFile where
  schema : DbSchema
  row : SessionsRowA

/-- `PyroSession.validate`. -/
def pyroValidate (db : Option PyroDbFile) : Bool :=
  match db with
  | none => false
  | some f => pyroValidateSchema f.schema

/-- `cls(**session)`: the record built from a `sessions` row.  Note there is
no auth-key length check anywhere on this path. -/
def recOfRowA (row : SessionsRowA) : PyroRec :=
  ⟨row.dc_id, row.auth_key, row.user_id, row.is_bot, row.test_mode, row.api_id⟩

/-- `PyroSession.from_file`: `ValidationError` unless `validate` holds, else
the record of the single `sessions` row. -/
def pyroFromFile (db : Option PyroDbFile) : Except PErr PyroRec :=
  match db with
  | none => .error .validation
  | some f =>
    if pyroValidateSchema f.schema then .ok (recOfRowA f.row)
    else .error .validation

/-! ## `PyroSession` — kurigram backend (`TGConvertor/sessions/pyro/kuri.py`)

Same format constants, but `from_string` dispatches on the length of the
*encoded* string (`STRING_SIZE = 351`, `STRING_SIZE_64 = 356`) and
`validate` only checks subset inclusion, and only for the `sessions`
columns. -/

/-- `TEST` data-center address table of the kurigram backend. -/
def KTEST : Nat → Option String := fun dc =>
  match dc with
  | 1 => some "149.154.175.10"
  | 2 => some "149.154.167.40"
  | 3 => some "149.154.175.117"
  | _ => none

/-- `PROD` data-center address table of the kurigram backend. -/
def KPROD : Nat → Option String := fun dc =>
  match dc with
  | 1 => some "149.154.175.53"
  | 2 => some "149.154.167.51"
  | 3 => some "149.154.175.100"
  | 4 => some "149.154.167.91"
  | 5 => some "91.108.56.130"
  | 203 => some "91.105.192.100"
  | _ => none

/-- The fields the kurigram `PyroSession.__init__` stores (its `date` field,
`date or int(time.time())`, is wall-clock state and no claim touches it, so
it is left out of the record). -/
structure KuriRec where
  dc_id : Nat
  auth_key : List Nat
  api_id : Option Nat
  user_id : Option Nat
  is_bot : Bool
  test_mode : Bool
  server_address : Option String
  port : Nat
deriving DecidableEq

/-- The kurigram `__init__`: `server_address or (TEST if test_mode else
PROD).get(dc_id)` and `port or (80 if test_mode else 443)` (Python `or`, so
a passed `0` port also falls back to the default). -/
def kuriInit (dc : Nat) (key : List Nat) (api uid : Option Nat) (ib tm : Bool)
    (sa : Option String) (port : Option Nat) : KuriRec :=
  { dc_id := dc, auth_key := key, api_id := api, user_id := uid,
    is_bot := ib, test_mode := tm,
    server_address :=
      match sa with
      | some a => some a
      | none => (if tm then KTEST else KPROD) dc,
    port :=
      match port with
      | some p => if p = 0 then (if tm then 80 else 443) else p
      | none => if tm then 80 else 443 }

/-- Kurigram `PyroSession.from_string`: base64-decode the re-padded string,
then choose the layout by the length of the *encoded* `session_string`
(`351` → old-32, `356` → old-64, anything else → current layout, where
`struct.unpack` raises `struct.error` if the buffer is not exactly its
`calcsize`). -/
def kuriFromString (s : List Char) : Except PErr KuriRec :=
  match b64d (pyPad s) with
  | none => .error .badBase64
  | some raw =>
    if s.length = 351 ∨ s.length = 356 then
      match unpackFields
          (if s.length = 356 then OLD_STRING_FORMAT_64 else OLD_STRING_FORMAT) raw with
      | some [.num dc, .bool tm, .bytes key, .num uid, .bool ib] =>
        .ok (kuriInit dc key none (some uid) ib tm
          ((if tm then KTEST else KPROD) dc) (some (if tm then 80 else 443)))
      | _ => .error .structError
    else
      match unpackFields STRING_FORMAT raw with
      | some [.num dc, .num api, .bool tm, .bytes key, .num uid, .bool ib] =>
        .ok (kuriInit dc key (some api) (some uid) ib tm
          ((if tm then KTEST else KPROD) dc) (some (if tm then 80 else 443)))
      | _ => .error .structError

/-- Kurigram `PyroSession.TABLES`: only the table *names* are listed. -/
def kuriTableNamesReq : List String :=
  ["sessions", "peers", "usernames", "update_state", "version"]

/-- The `expected` column set kurigram `validate` checks, for the `sessions`
table only. -/
def kuriSessionsColsReq : List String :=
  ["dc_id", "server_address", "port", "api_id", "test_mode", "auth_key",
   "date", "user_id", "is_bot"]

/-- The `sessions` row of a kurigram-schema file (`SELECT * FROM sessions`);
`date` is stored back into the discarded wall-clock field. -/
structure KuriRowA where
  dc_id : Nat
  server_address : Option String
  port : Option Nat
  api_id : Option Nat
  test_mode : Bool
  auth_key : List Nat
  date : Nat
  user_id : Option Nat
  is_bot : Bool
deriving DecidableEq

structure KuriDbFile where
  schema : DbSchema
  row : KuriRowA

/-- Kurigram `PyroSession.validate`: `cls.TABLES.issubset(tables)` and
`expected.issubset(cols)` for the `sessions` table — subset checks only,
and no check at all of any other table's columns. -/
def kuriValidate (db : Option KuriDbFile) : Bool :=
  match db with
  | none => false
  | some f =>
    kuriTableNamesReq.all (fun t => (tableNames f.schema).contains t) &&
      kuriSessionsColsReq.all (fun c => (schemaCols f.schema "sessions").contains c)

/-- `cls(**session)` for the kurigram backend. -/
def kuriRecOfRow (row : KuriRowA) : KuriRec :=
  kuriInit row.dc_id row.auth_key row.api_id row.user_id row.is_bot
    row.test_mode row.server_address row.port

/-- Kurigram `PyroSession.from_file`. -/
def kuriFromFile (db : Option KuriDbFile) : Except PErr KuriRec :=
  match db with
  | none => .error .validation
  | some f =>
    if kuriValidate (some f) then .ok (kuriRecOfRow f.row)
    else .error .validation

/-! ## `TeleSession` (`TGConvertor/sessions/tele.py`)

The source stores `server_address` as the canonical textual form of the IP
and converts through `ipaddress.ip_address(...).packed` / `.compressed`;
since that pair is a bijection between valid 4- or 16-byte strings and their
canonical texts, the record here keeps the packed byte form directly. -/

structure TeleRec where
  dc_id : Nat
  auth_key : List Nat
  server_address : Option (List Nat)
  port : Option Nat
  takeout_id : Option Nat
  user_id : Option Nat
  phone_number : Option Nat
deriving DecidableEq

inductive TErr
  | badBase64
  | structError
  /-- `ValueError` from `ipaddress.ip_address` on a byte string that is not
  a valid 4- or 16-byte address. -/
  | badIp
  /-- `struct.error` from packing a `None`/out-of-range field. -/
  | packError
  /-- The `ValidationError` `from_file` raises when the loaded session has
  no auth key. -/
  | noAuthKey
deriving DecidableEq

/-- `_STRUCT_PREFORMAT = '>B{}sH256s'` instantiated at ip length `n`. -/
def teleFmt (n : Nat) : List SField :=
  [.u8, .str n, .u16, .str 256]

/-- `TeleSession.from_string`: drop the first character unconditionally
(`string[1:]`), infer the ip width from the remaining *encoded* length
(`352` → 4 bytes, else 16), base64-decode (no re-padding here) and unpack. -/
def teleFromString (s : List Char) : Except TErr TeleRec :=
  match b64d (s.drop 1) with
  | none => .error .badBase64
  | some raw =>
    match unpackFields (teleFmt (if (s.drop 1).length = 352 then 4 else 16)) raw with
    | some [.num dc, .bytes ip, .num port, .bytes key] =>
      .ok ⟨dc, key, some ip, some port, none, none, none⟩
    | _ => .error .structError

/-- Modelled from the spec: the static per-data-center default endpoint
table (the external `DataCenter(dc_id, test_mode, ipv6, media)` of the
excluded client library), keyed by data-center id and test-network flag and
returning an `(address, port)` pair.  The repository always calls it with
`ipv6 = media = False`. -/
def DcTable := Nat → Bool → List Nat × Nat

/-- The encoding part of `TeleSession.to_string` after endpoint resolution:
`ip_address(server_address).packed`, then `'1' + urlsafe_b64encode(pack)`
(padding kept). -/
def teleEncodeCore (r : TeleRec) : Except TErr (List Char) :=
  match r.server_address with
  | some ip =>
    if ip.length = 4 ∨ ip.length = 16 then
      match r.port with
      | some p =>
        match packFields (teleFmt ip.length)
            [.num r.dc_id, .bytes ip, .num p, .bytes r.auth_key] with
        | some packed => .ok ('1' :: b64e packed)
        | none => .error .packError
      | none => .error .packError
    else .error .badIp
  | none => .error .packError

/-- `TeleSession.to_string`: when `self.server_address is None` it first
*assigns* `self.server_address, self.port = DataCenter(self.dc_id, False,
False, False)` — the test flag is hardcoded `False` — and only then encodes.
The second component is the record after the call (the mutated `self`). -/
def teleToString (T : DcTable) (r : TeleRec) : Except TErr (List Char) × TeleRec :=
  match r.server_address with
  | none =>
    let ap := T r.dc_id false
    let r' := { r with server_address := some ap.1, port := some ap.2 }
    (teleEncodeCore r', r')
  | some _ => (teleEncodeCore r, r)

/-- The values `to_file` hands to the external `SQLiteSession` store
(`set_dc`, `auth_key`, optional `takeout_id`). -/
structure TeleWritten where
  dc_id : Nat
  server_address : List Nat
  port : Nat
  auth_key : List Nat
  takeout_id : Option Nat
deriving DecidableEq

/-- `TeleSession.to_file`: when `server_address is None or port is None` it
assigns both from `DataCenter(self.dc_id, False, False, False)` (test flag
again hardcoded `False`), then hands the fields to the external
`SQLiteSession` and saves.  Second component is the mutated `self`. -/
def teleToFile (T : DcTable) (r : TeleRec) : Except TErr TeleWritten × TeleRec :=
  let r' :=
    if r.server_address = none ∨ r.port = none then
      let ap := T r.dc_id false
      { r with server_address := some ap.1, port := some ap.2 }
    else r
  match r'.server_address, r'.port with
  | some ip, some p => (.ok ⟨r'.dc_id, ip, p, r'.auth_key, r'.takeout_id⟩, r')
  | _, _ => (.error .packError, r')

/-- The core `sessions` data the external `SQLiteSession(path)` exposes
(modelled from the spec: the variant-B core table holds dc_id, endpoint,
auth_key and takeout_id; `auth_key` is `None`/empty for a fresh file). -/
structure TeleCore where
  dc_id : Nat
  server_address : Option (List Nat)
  port : Option Nat
  auth_key : Option (List Nat)
  takeout_id : Option Nat
deriving DecidableEq

/-- One row of the auxiliary `entities` table of a variant-B file. -/
structure TeleEntityRow where
  id : Nat
  phone : Option Nat
deriving DecidableEq

/-- A variant-B session file: the core data plus the `entities` table. -/
structure TeleDbFile where
  core : TeleCore
  entities : List TeleEntityRow

/-- `TeleSession.from_file`: raises `ValidationError` when the loaded
session has a falsy auth key, and otherwise returns the record with
`user_id=None, phone_number=None` — the `entities` table is never queried
(the source comment says so explicitly, and the repository's tests assert
the resulting `None`s). -/
def teleFromFile (f : TeleDbFile) : Except TErr TeleRec :=
  match f.core.auth_key with
  | none => .error .noAuthKey
  | some k =>
    if k.isEmpty then .error .noAuthKey
    else .ok ⟨f.core.dc_id, k, f.core.server_address, f.core.port,
      f.core.takeout_id, none, none⟩

/-! ## `TDataSession` (`TGConvertor/sessions/tdata.py`) and the manager -/

structure TDataRec where
  dc_id : Nat
  auth_key : List Nat
  user_id : Option Nat
deriving DecidableEq

/-- The file-system side effects `to_folder` can perform, in order. -/
inductive IOEvent
  /-- `path.mkdir(parents=True, exist_ok=True)`. -/
  | mkdir (path : String)
  /-- `client.SaveTData(path / "tdata")` (external container write). -/
  | saveTData (path : String)
deriving DecidableEq

inductive TdErr
  /-- `ValueError("user_id is None")` in `TDataSession.to_folder`. -/
  | userIdNone
  /-- `ValueError("user_id is required for TDataSession")` in the manager's
  `tdata` accessor. -/
  | userIdRequired
deriving DecidableEq

/-- `TDataSession.to_folder` (with the opentele dependency installed): the
source calls `path.mkdir(...)` first, then builds `DcId`/`AuthKey`, then
checks `if self.user_id is None: raise ValueError`, and only after that
builds the container and calls `SaveTData(path / "tdata")`.  Returned are
the ordered file-system events and the outcome. -/
def tdataToFolder (r : TDataRec) (path : String) : List IOEvent × Except TdErr Unit :=
  if r.user_id.isNone then
    ([IOEvent.mkdir path], .error .userIdNone)
  else
    ([IOEvent.mkdir path, IOEvent.saveTData (path ++ "/tdata")], .ok ())

/-- The manager state the claims touch (`SessionManager.__init__` keeps
`dc_id`, `auth_key`, `user_id`, `test_mode`, …). -/
structure ManagerRec where
  dc_id : Nat
  auth_key : List Nat
  user_id : Option Nat
  test_mode : Bool
deriving DecidableEq

/-- The manager's `telethon` property: `TeleSession(dc_id=self.dc_id,
auth_key=self.auth_key)` — every other field, including `test_mode`, is
dropped. -/
def managerTelethon (m : ManagerRec) : TeleRec :=
  ⟨m.dc_id, m.auth_key, none, none, none, none, none⟩

/-- `SessionManager.to_telethon_string` = `self.telethon.to_string()`. -/
def managerToTelethonString (T : DcTable) (m : ManagerRec) : Except TErr (List Char) :=
  (teleToString T (managerTelethon m)).1

/-- The manager's `tdata` property: raises `ValueError` when `self.user_id
is None`, *before* constructing any `TDataSession` and before any I/O. -/
def managerTdata (m : ManagerRec) : Except TdErr TDataRec :=
  match m.user_id with
  | none => .error .userIdRequired
  | some u => .ok ⟨m.dc_id, m.auth_key, some u⟩

/-! ## Concrete inputs used by witnesses and counterexamples -/

/-- A token whose decoded length (10) matches no known layout. -/
def s10 : List Char := b64e (List.replicate 10 0)

/-- The byte image of the current `>BI?256sQ?` layout. -/
def packedCurrent (dc a : Nat) (tm : Bool) (key : List Nat) (u : Nat) (ib : Bool) :
    List Nat :=
  [dc] ++ beBytes 4 a ++ [if tm then 1 else 0] ++ key ++ beBytes 8 u ++
    [if ib then 1 else 0]

/-- The byte image of the Telethon `>B4sH256s` layout. -/
def packedTele4 (dc : Nat) (ip : List Nat) (p : Nat) (key : List Nat) : List Nat :=
  [dc] ++ ip ++ beBytes 2 p ++ key

/-! ## Helper lemmas about `struct` unpacking -/

/-- The value list `struct.unpack` produces once the length check passes. -/
def unpackValsAux : List SField → List Nat → List SVal
  | [], _ => []
  | f :: fs, bs => sValOf f (bs.take (fieldSize f)) :: unpackValsAux fs (bs.drop (fieldSize f))

instance {e a : Type} [DecidableEq e] [DecidableEq a] : DecidableEq (Except e a)
  | .error x, .error y =>
    if h : x = y then .isTrue (by rw [h]) else .isFalse (by simp [h])
  | .error _, .ok _ => .isFalse (by simp)
  | .ok _, .error _ => .isFalse (by simp)
  | .ok x, .ok y =>
    if h : x = y then .isTrue (by rw [h]) else .isFalse (by simp [h])

/-- The decoded bytes of `s10`. -/
def bs10 : List Nat := List.replicate 10 0

/-! ## Claims -/

/-- A well-formed variant-A file whose `sessions` row carries a 5-byte auth
key. -/
def fileABadKey : PyroDbFile :=
  ⟨pyroTABLES, ⟨2, some 12345, false, List.replicate 5 7, 1700000000,
    some 112233445, false⟩⟩

/-- A well-formed variant-A file with a 256-byte auth key. -/
def fileAGood : PyroDbFile :=
  ⟨pyroTABLES, ⟨2, some 12345, false, List.replicate 256 7, 1700000000,
    some 112233445, false⟩⟩

/-- The fully populated record used to witness C3. -/
def rC3 : PyroRec := ⟨2, List.replicate 256 7, some 112233445, false, false, some 12345⟩

/-- The record with unset `user_id`/`api_id` used to witness C7. -/
def rC7 : PyroRec := ⟨3, List.replicate 256 9, none, false, true, none⟩

/-- The concrete endpoint table used by the tele witnesses: test and
production entries differ. -/
def Tw : DcTable := fun _ t => if t then ([1, 2, 3, 4], 80) else ([9, 8, 7, 6], 443)

/-- A record with `server_address`/`port` unset, to be resolved. -/
def rC8 : TeleRec := ⟨2, List.replicate 256 7, none, none, none, none, none⟩

/-- A manager on the test network (`test_mode = true`). -/
def mC8 : ManagerRec := ⟨2, List.replicate 256 7, none, true⟩

/-- A record with no endpoint and an empty auth key (the post-state does
not depend on the key). -/
def rC9mut : TeleRec := ⟨2, [], none, none, none, none, none⟩

/-- A record whose endpoint is already set. -/
def rC9set : TeleRec := ⟨2, [], some [1, 2, 3, 4], some 443, none, none, none⟩

/-- The record and emitted string used to witness C10. -/
def rC10 : TeleRec := ⟨2, List.replicate 256 7, some [1, 2, 3, 4], some 443, none, none, none⟩

def sC10 : List Char := '1' :: b64e (packedTele4 2 [1, 2, 3, 4] 443 (List.replicate 256 7))

/-- A kurigram-schema file carrying one extra table beyond the expected
set. -/
def kuriFileExtra : KuriDbFile :=
  ⟨[("sessions", kuriSessionsColsReq), ("peers", ["id"]), ("usernames", ["id"]),
    ("update_state", ["id"]), ("version", ["number"]), ("extra_table", ["x"])],
   ⟨2, some "149.154.167.51", some 443, some 12345, false,
    List.replicate 256 7, 1700000000, some 112233445, false⟩⟩

/-- A record with `user_id` unset. -/
def rNoUid : TDataRec := ⟨2, List.replicate 256 7, none⟩

/-- A variant-B file that *does* carry an entity row. -/
def fEnt : TeleDbFile :=
  ⟨⟨2, some [5, 6, 7, 8], some 443, some (List.replicate 256 7), none⟩,
   [⟨777, some 15550001122⟩]⟩

/-- A variant-B file with an empty `entities` table. -/
def fNoEnt : TeleDbFile :=
  ⟨⟨4, none, none, some (List.replicate 256 8), some 55⟩, []⟩

/-! ## Lemmas and claim theorems -/

theorem beBytes_length (w v : Nat) : (beBytes w v).length = w := by
  induction w generalizing v with
  | zero => rfl
  | succ w ih => simp [beBytes, ih]

theorem beBytes_lt (w v : Nat) : ∀ x ∈ beBytes w v, x < 256 := by
  induction w generalizing v with
  | zero => simp [beBytes]
  | succ w ih =>
    intro x hx
    simp only [beBytes, List.mem_append, List.mem_singleton] at hx
    rcases hx with hx | hx
    · exact ih _ x hx
    · subst hx; exact Nat.mod_lt _ (by omega)

theorem beVal_append_singleton (l : List Nat) (b : Nat) :
    beVal (l ++ [b]) = beVal l * 256 + b := by
  simp [beVal, List.foldl_append]

theorem beVal_beBytes (w v : Nat) (h : v < 256 ^ w) : beVal (beBytes w v) = v := by
  induction w generalizing v with
  | zero =>
    interval_cases v
    rfl
  | succ w ih =>
    have hdiv : v / 256 < 256 ^ w := by
      rw [Nat.div_lt_iff_lt_mul (by omega)]
      calc v < 256 ^ (w + 1) := h
      _ = 256 ^ w * 256 := by ring
    rw [beBytes, beVal_append_singleton, ih _ hdiv]
    omega

theorem b64dec_alpha (n : Nat) (h : n < 64) : b64dec (b64alpha n) = some n := by
  interval_cases n <;> decide

theorem b64alpha_ne_eq (n : Nat) (h : n < 64) : b64alpha n ≠ '=' := by
  interval_cases n <;> decide

theorem stripEq_cons_ne (c : Char) (cs : List Char) (h : c ≠ '=') :
    stripEq (c :: cs) = c :: stripEq cs := by
  rw [stripEq]
  cases hs : stripEq cs with
  | nil => simp [h]
  | cons a as => rfl

theorem b64d_two_pad (c1 c2 : Char) (v1 v2 : Nat)
    (h1 : b64dec c1 = some v1) (h2 : b64dec c2 = some v2) :
    b64d [c1, c2, '=', '='] = some [v1 * 4 + v2 / 16] := by
  simp [b64d, h1, h2]

theorem b64d_one_pad (c1 c2 c3 : Char) (v1 v2 v3 : Nat) (hne : c3 ≠ '=')
    (h1 : b64dec c1 = some v1) (h2 : b64dec c2 = some v2) (h3 : b64dec c3 = some v3) :
    b64d [c1, c2, c3, '='] = some [v1 * 4 + v2 / 16, v2 % 16 * 16 + v3 / 4] := by
  simp [b64d, hne, h1, h2, h3]

theorem b64d_full (c1 c2 c3 c4 : Char) (rest : List Char) (v1 v2 v3 v4 : Nat)
    (bs : List Nat) (hne3 : c3 ≠ '=') (hne4 : c4 ≠ '=')
    (h1 : b64dec c1 = some v1) (h2 : b64dec c2 = some v2)
    (h3 : b64dec c3 = some v3) (h4 : b64dec c4 = some v4)
    (hrest : b64d rest = some bs) :
    b64d (c1 :: c2 :: c3 :: c4 :: rest) =
      some ((v1 * 4 + v2 / 16) :: (v2 % 16 * 16 + v3 / 4) :: (v3 % 4 * 64 + v4) :: bs) := by
  simp [b64d, hne3, hne4, h1, h2, h3, h4, hrest]

theorem b64d_b64e (bs : List Nat) (h : ∀ x ∈ bs, x < 256) : b64d (b64e bs) = some bs := by
  induction bs using b64e.induct with
  | case1 => rfl
  | case2 a =>
    have ha : a < 256 := h a (by simp)
    rw [b64e, b64d_two_pad _ _ (a / 4) (a % 4 * 16)
      (b64dec_alpha _ (by omega)) (b64dec_alpha _ (by omega))]
    congr 2
    omega
  | case3 a b =>
    have ha : a < 256 := h a (by simp)
    have hb : b < 256 := h b (by simp)
    rw [b64e, b64d_one_pad _ _ _ (a / 4) (a % 4 * 16 + b / 16) (b % 16 * 4)
      (b64alpha_ne_eq _ (by omega))
      (b64dec_alpha _ (by omega)) (b64dec_alpha _ (by omega)) (b64dec_alpha _ (by omega))]
    congr 3
    · omega
    · omega
  | case4 a b c rest ih =>
    have ha : a < 256 := h a (by simp)
    have hb : b < 256 := h b (by simp)
    have hc : c < 256 := h c (by simp)
    have hrest : b64d (b64e rest) = some rest := by
      refine ih fun x hx => h x ?_
      simp [hx]
    rw [b64e, b64d_full _ _ _ _ _ (a / 4) (a % 4 * 16 + b / 16) (b % 16 * 4 + c / 64)
      (c % 64) rest (b64alpha_ne_eq _ (by omega)) (b64alpha_ne_eq _ (by omega))
      (b64dec_alpha _ (by omega)) (b64dec_alpha _ (by omega))
      (b64dec_alpha _ (by omega)) (b64dec_alpha _ (by omega)) hrest]
    congr 3
    · omega
    · omega
    · congr 2
      omega

theorem pyPad_cons4 (a b c d : Char) (l : List Char) :
    pyPad (a :: b :: c :: d :: l) = a :: b :: c :: d :: pyPad l := by
  simp [pyPad, List.length_cons]
  congr 2
  omega

theorem pyPad_stripEq_b64e (bs : List Nat) (h : ∀ x ∈ bs, x < 256) :
    pyPad (stripEq (b64e bs)) = b64e bs := by
  induction bs using b64e.induct with
  | case1 => rfl
  | case2 a =>
    have ha : a < 256 := h a (by simp)
    rw [b64e, stripEq_cons_ne _ _ (b64alpha_ne_eq _ (by omega)),
      stripEq_cons_ne _ _ (b64alpha_ne_eq _ (by omega))]
    have : stripEq ['=', '='] = [] := by decide
    rw [this]
    simp [pyPad]
  | case3 a b =>
    have ha : a < 256 := h a (by simp)
    have hb : b < 256 := h b (by simp)
    rw [b64e, stripEq_cons_ne _ _ (b64alpha_ne_eq _ (by omega)),
      stripEq_cons_ne _ _ (b64alpha_ne_eq _ (by omega)),
      stripEq_cons_ne _ _ (b64alpha_ne_eq _ (by omega))]
    have : stripEq ['='] = [] := by decide
    rw [this]
    simp [pyPad]
  | case4 a b c rest ih =>
    have ha : a < 256 := h a (by simp)
    have hb : b < 256 := h b (by simp)
    have hc : c < 256 := h c (by simp)
    have hrest : pyPad (stripEq (b64e rest)) = b64e rest := by
      refine ih fun x hx => h x ?_
      simp [hx]
    rw [b64e, stripEq_cons_ne _ _ (b64alpha_ne_eq _ (by omega)),
      stripEq_cons_ne _ _ (b64alpha_ne_eq _ (by omega)),
      stripEq_cons_ne _ _ (b64alpha_ne_eq _ (by omega)),
      stripEq_cons_ne _ _ (b64alpha_ne_eq _ (by omega)),
      pyPad_cons4, hrest]

theorem b64e_length (bs : List Nat) : (b64e bs).length = 4 * ((bs.length + 2) / 3) := by
  induction bs using b64e.induct with
  | case1 => rfl
  | case2 a => simp [b64e]
  | case3 a b => simp [b64e]
  | case4 a b c rest ih =>
    simp only [b64e, List.length_cons, ih]
    omega

theorem packField_length (f : SField) (v : SVal) (bs : List Nat)
    (h : packField f v = some bs) : bs.length = fieldSize f := by
  cases f <;> cases v <;> simp [packField] at h
  case u8.num n =>
    rcases h with ⟨hn, rfl⟩
    simp [fieldSize]
  case boolByte.bool b =>
    subst h
    simp [fieldSize]
  case str.bytes n k =>
    subst h
    simp [fieldSize]
  case u32.num n =>
    rcases h with ⟨hn, rfl⟩
    simp [fieldSize, beBytes_length]
  case u64.num n =>
    rcases h with ⟨hn, rfl⟩
    simp [fieldSize, beBytes_length]
  case u16.num n =>
    rcases h with ⟨hn, rfl⟩
    simp [fieldSize, beBytes_length]

theorem structCalcsize_cons (f : SField) (fs : List SField) :
    structCalcsize (f :: fs) = fieldSize f + structCalcsize fs := by
  simp [structCalcsize]

theorem packFields_length (fmt : List SField) (vs : List SVal) (bs : List Nat)
    (h : packFields fmt vs = some bs) : bs.length = structCalcsize fmt := by
  induction fmt generalizing vs bs with
  | nil =>
    cases vs <;> simp [packFields] at h
    subst h
    rfl
  | cons f fs ih =>
    cases vs with
    | nil => simp [packFields] at h
    | cons v vs =>
      simp only [packFields] at h
      cases hf : packField f v with
      | none => rw [hf] at h; simp at h
      | some bsf =>
        cases hr : packFields fs vs with
        | none => rw [hf, hr] at h; simp at h
        | some rest =>
          rw [hf, hr] at h
          simp at h
          subst h
          rw [List.length_append, packField_length f v bsf hf, ih vs rest hr,
            structCalcsize_cons]

theorem unpack_packField (f : SField) (v : SVal) (bsf rest : List Nat)
    (h : packField f v = some bsf)
    (hsz : ∀ n k, f = .str n → v = .bytes k → k.length = n) :
    sValOf f ((bsf ++ rest).take (fieldSize f)) = v := by
  have hlen : bsf.length = fieldSize f := packField_length f v bsf h
  rw [← hlen, List.take_left]
  cases f <;> cases v <;> simp [packField] at h
  case u8.num n =>
    rcases h with ⟨hn, rfl⟩
    simp [sValOf]
  case boolByte.bool b =>
    subst h
    cases b <;> simp [sValOf]
  case str.bytes n k =>
    have hk : k.length = n := hsz n k rfl rfl
    have htk : k.take n = k := List.take_of_length_le (le_of_eq hk)
    subst h
    simp [sValOf, htk, hk, List.take_take]
  case u32.num n =>
    rcases h with ⟨hn, rfl⟩
    have h4 : (beBytes 4 n).take 4 = beBytes 4 n :=
      List.take_of_length_le (by simp [beBytes_length])
    simp [sValOf, h4, beVal_beBytes 4 n hn]
  case u64.num n =>
    rcases h with ⟨hn, rfl⟩
    have h8 : (beBytes 8 n).take 8 = beBytes 8 n :=
      List.take_of_length_le (by simp [beBytes_length])
    simp [sValOf, h8, beVal_beBytes 8 n hn]
  case u16.num n =>
    rcases h with ⟨hn, rfl⟩
    have h2 : (beBytes 2 n).take 2 = beBytes 2 n :=
      List.take_of_length_le (by simp [beBytes_length])
    simp [sValOf, h2, beVal_beBytes 2 n hn]

theorem unpack_pack (fmt : List SField) (vs : List SVal) (bs : List Nat)
    (h : packFields fmt vs = some bs) (hsz : sizedVals fmt vs) :
    unpackFields fmt bs = some vs := by
  induction fmt generalizing vs bs with
  | nil =>
    cases vs <;> simp [packFields] at h
    subst h
    rfl
  | cons f fs ih =>
    cases vs with
    | nil => simp [packFields] at h
    | cons v vs =>
      simp only [packFields] at h
      cases hf : packField f v with
      | none => rw [hf] at h; simp at h
      | some bsf =>
        cases hr : packFields fs vs with
        | none => rw [hf, hr] at h; simp at h
        | some rest =>
          rw [hf, hr] at h
          simp at h
          subst h
          have hlen : bsf.length = fieldSize f := packField_length f v bsf hf
          have htail : sizedVals fs vs := by
            cases f <;> cases v <;> simp [sizedVals] at hsz ⊢ <;> tauto
          have hszf : ∀ n k, f = .str n → v = .bytes k → k.length = n := by
            intro n k hfn hvk
            subst hfn; subst hvk
            simpa [sizedVals] using hsz.1
          rw [unpackFields]
          have hge : fieldSize f ≤ (bsf ++ rest).length := by
            simp [List.length_append]
            omega
          rw [if_pos hge]
          have hdrop : (bsf ++ rest).drop (fieldSize f) = rest := by
            rw [← hlen, List.drop_left]
          rw [hdrop, ih vs rest hr htail, unpack_packField f v bsf rest hf hszf]

theorem unpack_total (fmt : List SField) (bs : List Nat)
    (h : bs.length = structCalcsize fmt) :
    unpackFields fmt bs = some (unpackValsAux fmt bs) := by
  induction fmt generalizing bs with
  | nil =>
    have : bs = [] := List.eq_nil_of_length_eq_zero (by simpa [structCalcsize] using h)
    subst this
    rfl
  | cons f fs ih =>
    rw [structCalcsize_cons] at h
    have hle : fieldSize f ≤ bs.length := by omega
    have hdrop : (bs.drop (fieldSize f)).length = structCalcsize fs := by
      simp [List.length_drop]
      omega
    rw [unpackFields, if_pos hle, ih _ hdrop, unpackValsAux]

theorem headD_take (l : List Nat) (n : Nat) :
    ((l.take (n + 1)).headD 0) = l.headD 0 := by
  cases l <;> simp

theorem pack_string_format (dc a u : Nat) (key : List Nat) (tm ib : Bool)
    (hdc : dc < 256) (ha : a < 2 ^ 32) (hu : u < 2 ^ 64) (hk : key.length = 256) :
    packFields STRING_FORMAT
        [.num dc, .num a, .bool tm, .bytes key, .num u, .bool ib] =
      some (packedCurrent dc a tm key u ib) := by
  have htk : key.take 256 = key := List.take_of_length_le (le_of_eq hk)
  have ha4 : a < 4294967296 := by omega
  have hu8 : u < 18446744073709551616 := by omega
  simp [STRING_FORMAT, packFields, packField, hdc, ha4, hu8, htk, hk,
    packedCurrent, List.append_assoc]

theorem packedCurrent_length (dc a : Nat) (tm : Bool) (key : List Nat) (u : Nat)
    (ib : Bool) (hk : key.length = 256) :
    (packedCurrent dc a tm key u ib).length = 271 := by
  simp [packedCurrent, beBytes_length, hk]

theorem packedCurrent_lt (dc a : Nat) (tm : Bool) (key : List Nat) (u : Nat)
    (ib : Bool) (hdc : dc < 256) (hkb : ∀ x ∈ key, x < 256) :
    ∀ x ∈ packedCurrent dc a tm key u ib, x < 256 := by
  intro x hx
  simp only [packedCurrent, List.mem_append, List.mem_singleton] at hx
  rcases hx with ((((hx | hx) | hx) | hx) | hx) | hx
  · omega
  · exact beBytes_lt 4 a x hx
  · subst hx
    split <;> omega
  · exact hkb x hx
  · exact beBytes_lt 8 u x hx
  · subst hx
    split <;> omega

theorem sized_string_format (key : List Nat) (hk : key.length = 256)
    (dc a u : Nat) (tm ib : Bool) :
    sizedVals STRING_FORMAT
      [.num dc, .num a, .bool tm, .bytes key, .num u, .bool ib] := by
  simp [STRING_FORMAT, sizedVals, hk]

theorem calcsize_old : structCalcsize OLD_STRING_FORMAT = 263 := by decide

theorem calcsize_old64 : structCalcsize OLD_STRING_FORMAT_64 = 267 := by decide

theorem calcsize_current : structCalcsize STRING_FORMAT = 271 := by decide

theorem headD_take_one (l : List Nat) : (l.take 1).headD 0 = l.headD 0 := by
  cases l <;> simp

theorem unpackVals_old (bs : List Nat) :
    unpackValsAux OLD_STRING_FORMAT bs =
      [.num (bs.headD 0), .bool ((bs.drop 1).headD 0 != 0),
       .bytes ((bs.drop 2).take 256), .num (beVal ((bs.drop 258).take 4)),
       .bool ((bs.drop 262).headD 0 != 0)] := by
  simp [OLD_STRING_FORMAT, unpackValsAux, fieldSize, sValOf, List.drop_drop,
    List.take_take, List.head?_take, List.head?_drop, List.headD_eq_head?]

theorem unpackVals_old64 (bs : List Nat) :
    unpackValsAux OLD_STRING_FORMAT_64 bs =
      [.num (bs.headD 0), .bool ((bs.drop 1).headD 0 != 0),
       .bytes ((bs.drop 2).take 256), .num (beVal ((bs.drop 258).take 8)),
       .bool ((bs.drop 266).headD 0 != 0)] := by
  simp [OLD_STRING_FORMAT_64, unpackValsAux, fieldSize, sValOf, List.drop_drop,
    List.take_take, List.head?_take, List.head?_drop, List.headD_eq_head?]

theorem unpackVals_current (bs : List Nat) :
    unpackValsAux STRING_FORMAT bs =
      [.num (bs.headD 0), .num (beVal ((bs.drop 1).take 4)),
       .bool ((bs.drop 5).headD 0 != 0), .bytes ((bs.drop 6).take 256),
       .num (beVal ((bs.drop 262).take 8)), .bool ((bs.drop 270).headD 0 != 0)] := by
  simp [STRING_FORMAT, unpackValsAux, fieldSize, sValOf, List.drop_drop,
    List.take_take, List.head?_take, List.head?_drop, List.headD_eq_head?]

/-- The round trip of the pyrogram-backend string codec, for any
combination of set/unset `user_id`/`api_id` (Python `x or 0`). -/
theorem pyro_roundtrip_general (dc : Nat) (key : List Nat) (ou oa : Option Nat)
    (tm ib : Bool) (hdc : dc < 256) (hk : key.length = 256)
    (hkb : ∀ x ∈ key, x < 256) (ha : oa.getD 0 < 2 ^ 32) (hu : ou.getD 0 < 2 ^ 64) :
    pyroRoundtrip ⟨dc, key, ou, ib, tm, oa⟩ =
      some (.ok ⟨dc, key, some (ou.getD 0), ib, tm, some (oa.getD 0)⟩) := by
  have hpack := pack_string_format dc (oa.getD 0) (ou.getD 0) key tm ib hdc ha hu hk
  have hlen : (packedCurrent dc (oa.getD 0) tm key (ou.getD 0) ib).length = 271 :=
    packedCurrent_length _ _ _ _ _ _ hk
  have hlt : ∀ x ∈ packedCurrent dc (oa.getD 0) tm key (ou.getD 0) ib, x < 256 :=
    packedCurrent_lt _ _ _ _ _ _ hdc hkb
  have hdecode : b64d (pyPad (stripEq
      (b64e (packedCurrent dc (oa.getD 0) tm key (ou.getD 0) ib)))) =
      some (packedCurrent dc (oa.getD 0) tm key (ou.getD 0) ib) := by
    rw [pyPad_stripEq_b64e _ hlt, b64d_b64e _ hlt]
  have hunpack : unpackFields STRING_FORMAT
      (packedCurrent dc (oa.getD 0) tm key (ou.getD 0) ib) =
      some [.num dc, .num (oa.getD 0), .bool tm, .bytes key,
            .num (ou.getD 0), .bool ib] :=
    unpack_pack _ _ _ hpack (sized_string_format key hk _ _ _ _ _)
  simp only [pyroRoundtrip, pyroToString]
  rw [hpack]
  simp only [Option.map_some']
  rw [pyroFromString]
  rw [hdecode]
  simp only [hlen, calcsize_old, calcsize_old64, calcsize_current, hunpack]
  norm_num

theorem replicate_lt (n a b : Nat) (h : a < b) : ∀ x ∈ List.replicate n a, x < b := by
  intro x hx
  rw [List.eq_of_mem_replicate hx]
  exact h

/-- C1 (amended: restricted to the pyrogram backend `sessions/pyro.py`; the
kurigram backend `sessions/pyro/kuri.py` dispatches on the encoded string
length instead, see the counterexample): once `from_string` base64-decodes
the re-padded token to `bs`, a decoded length of exactly 263 parses as the
old-32 layout with `api_id` unset, 267 as the old-64 layout with `api_id`
unset, 271 as the current layout with `api_id` read from bytes 1..4, and any
other decoded length raises a validation error reporting the observed
length. -/
theorem c1_pyro_from_string_length_dispatch (s : List Char) (bs : List Nat)
    (hb : b64d (pyPad s) = some bs) :
    (bs.length = 263 → pyroFromString s =
      .ok ⟨bs.headD 0, (bs.drop 2).take 256, some (beVal ((bs.drop 258).take 4)),
           (bs.drop 262).headD 0 != 0, (bs.drop 1).headD 0 != 0, none⟩) ∧
    (bs.length = 267 → pyroFromString s =
      .ok ⟨bs.headD 0, (bs.drop 2).take 256, some (beVal ((bs.drop 258).take 8)),
           (bs.drop 266).headD 0 != 0, (bs.drop 1).headD 0 != 0, none⟩) ∧
    (bs.length = 271 → pyroFromString s =
      .ok ⟨bs.headD 0, (bs.drop 6).take 256, some (beVal ((bs.drop 262).take 8)),
           (bs.drop 270).headD 0 != 0, (bs.drop 5).headD 0 != 0,
           some (beVal ((bs.drop 1).take 4))⟩) ∧
    (bs.length ≠ 263 → bs.length ≠ 267 → bs.length ≠ 271 →
      pyroFromString s = .error (.unexpectedLength bs.length)) := by
  refine ⟨fun h263 => ?_, fun h267 => ?_, fun h271 => ?_, fun n1 n2 n3 => ?_⟩
  · rw [pyroFromString, hb]
    dsimp only
    rw [unpack_total OLD_STRING_FORMAT bs (by rw [h263, calcsize_old]),
      unpackVals_old]
    simp [h263, calcsize_old]
  · rw [pyroFromString, hb]
    dsimp only
    rw [unpack_total OLD_STRING_FORMAT_64 bs (by rw [h267, calcsize_old64]),
      unpackVals_old64]
    simp [h267, calcsize_old, calcsize_old64]
  · rw [pyroFromString, hb]
    dsimp only
    rw [unpack_total STRING_FORMAT bs (by rw [h271, calcsize_current]),
      unpackVals_current]
    simp [h271, calcsize_old, calcsize_old64, calcsize_current]
  · rw [pyroFromString, hb]
    dsimp only
    simp [calcsize_old, calcsize_old64, calcsize_current, n1, n2, n3]

set_option maxRecDepth 20000 in
/-- C1 witness: a token with decoded length 10 is rejected by the pyrogram
backend with a validation error naming the length. -/
theorem c1_witness : pyroFromString s10 = .error (.unexpectedLength 10) := by
  have h := (c1_pyro_from_string_length_dispatch s10 bs10 (by decide)).2.2.2
    (by decide) (by decide) (by decide)
  simpa [bs10] using h

set_option maxRecDepth 20000 in
/-- C1 counterexample: the same token under the kurigram backend.  Its
decoded length is 10 — the claim demands a validation error reporting 10 —
but `kuriFromString` dispatches on the encoded length (16 ∉ {351, 356}),
attempts the current layout, and fails with a `struct.error` that reports no
observed length. -/
theorem c1_counterexample :
    b64d (pyPad s10) = some (List.replicate 10 0) ∧
    kuriFromString s10 = .error .structError ∧
    kuriFromString s10 ≠ .error (.unexpectedLength 10) := by
  refine ⟨by decide, by decide, by decide⟩

/-- C2 (amended: decoding a *string* always yields a 256-byte auth key —
the `256s` unpack format guarantees it structurally — but
`PyroSession.from_file` performs no auth-key length check at all and returns
the `sessions` row's auth key unchanged whatever its length, and
`PyroSession.to_string` silently truncates or NUL-pads the key to 256 bytes
through `struct.pack`'s `256s` code). -/
theorem c2_auth_key_lengths :
    (∀ s r, pyroFromString s = .ok r → r.auth_key.length = 256) ∧
    (∀ f r, pyroFromFile (some f) = .ok r → r.auth_key = f.row.auth_key) ∧
    (∀ k out, packField (.str 256) (.bytes k) = some out → out.length = 256) := by
  refine ⟨fun s r h => ?_, fun f r h => ?_, fun k out h => packField_length _ _ _ h⟩
  · rw [pyroFromString] at h
    cases hb : b64d (pyPad s) with
    | none => rw [hb] at h; simp at h
    | some bs =>
      rw [hb] at h
      dsimp only at h
      by_cases h263 : bs.length = structCalcsize OLD_STRING_FORMAT
      · rw [if_pos h263, unpack_total OLD_STRING_FORMAT bs h263, unpackVals_old] at h
        simp at h
        rw [← h]
        simp [List.length_take, List.length_drop]
        rw [calcsize_old] at h263
        omega
      · by_cases h267 : bs.length = structCalcsize OLD_STRING_FORMAT_64
        · rw [if_neg h263, if_pos h267,
            unpack_total OLD_STRING_FORMAT_64 bs h267, unpackVals_old64] at h
          simp at h
          rw [← h]
          simp [List.length_take, List.length_drop]
          rw [calcsize_old64] at h267
          omega
        · by_cases h271 : bs.length = structCalcsize STRING_FORMAT
          · rw [if_neg h263, if_neg h267, if_pos h271,
              unpack_total STRING_FORMAT bs h271, unpackVals_current] at h
            simp at h
            rw [← h]
            simp [List.length_take, List.length_drop]
            rw [calcsize_current] at h271
            omega
          · rw [if_neg h263, if_neg h267, if_neg h271] at h
            simp at h
  · rw [pyroFromFile] at h
    by_cases hv : pyroValidateSchema f.schema
    · rw [if_pos hv] at h
      simp at h
      rw [← h, recOfRowA]
    · rw [if_neg hv] at h
      simp at h

set_option maxRecDepth 20000 in
/-- C2 counterexample: `from_file` happily returns a record whose auth key
has length 5 — no validation error, no truncation or padding to 256. -/
theorem c2_counterexample :
    pyroFromFile (some fileABadKey) = .ok (recOfRowA fileABadKey.row) ∧
    (recOfRowA fileABadKey.row).auth_key.length = 5 := by
  refine ⟨by decide, by decide⟩

set_option maxRecDepth 20000 in
/-- C2 witness: the from-file conjunct applied to a concrete good file. -/
theorem c2_witness :
    pyroFromFile (some fileAGood) = .ok (recOfRowA fileAGood.row) ∧
    (recOfRowA fileAGood.row).auth_key = fileAGood.row.auth_key :=
  ⟨by decide, c2_auth_key_lengths.2.1 fileAGood (recOfRowA fileAGood.row) (by decide)⟩

/-- C3: for a record with every field set and in range, decoding the encoded
binary string reproduces `dc_id`, `auth_key`, `user_id`, `is_bot`,
`test_mode` and `api_id` exactly. -/
theorem c3_roundtrip (dc a u : Nat) (key : List Nat) (tm ib : Bool)
    (hdc : dc < 256) (ha : a < 2 ^ 32) (hu : u < 2 ^ 64)
    (hk : key.length = 256) (hkb : ∀ x ∈ key, x < 256) :
    pyroRoundtrip ⟨dc, key, some u, ib, tm, some a⟩ =
      some (.ok ⟨dc, key, some u, ib, tm, some a⟩) := by
  simpa using pyro_roundtrip_general dc key (some u) (some a) tm ib hdc hk hkb
    (by simpa) (by simpa)

set_option maxRecDepth 20000 in
/-- C3 witness at a concrete record. -/
theorem c3_witness : pyroRoundtrip rC3 = some (.ok rC3) :=
  c3_roundtrip 2 12345 112233445 (List.replicate 256 7) false false
    (by decide) (by decide) (by decide) rfl (replicate_lt 256 7 256 (by decide))

/-- C7: encoding a record with `user_id` and `api_id` unset emits the
current layout with 0 in those fields, and decoding the emitted string
succeeds with `user_id = 0` (and `api_id = 0`) rather than an error. -/
theorem c7_zero_sentinel (dc : Nat) (key : List Nat) (tm ib : Bool)
    (hdc : dc < 256) (hk : key.length = 256) (hkb : ∀ x ∈ key, x < 256) :
    pyroToString ⟨dc, key, none, ib, tm, none⟩ =
      some (stripEq (b64e (packedCurrent dc 0 tm key 0 ib))) ∧
    pyroRoundtrip ⟨dc, key, none, ib, tm, none⟩ =
      some (.ok ⟨dc, key, some 0, ib, tm, some 0⟩) := by
  constructor
  · simp only [pyroToString, Option.getD_none]
    rw [pack_string_format dc 0 0 key tm ib hdc (by norm_num) (by norm_num) hk]
    simp
  · simpa using pyro_roundtrip_general dc key none none tm ib hdc hk hkb
      (by simp) (by simp)

theorem pack_tele4 (dc p : Nat) (ip key : List Nat) (hdc : dc < 256)
    (hp : p < 2 ^ 16) (hip : ip.length = 4) (hk : key.length = 256) :
    packFields (teleFmt 4) [.num dc, .bytes ip, .num p, .bytes key] =
      some (packedTele4 dc ip p key) := by
  have htip : ip.take 4 = ip := List.take_of_length_le (le_of_eq hip)
  have htk : key.take 256 = key := List.take_of_length_le (le_of_eq hk)
  have hp2 : p < 65536 := by omega
  simp [teleFmt, packFields, packField, hdc, hp2, htip, htk, hip, hk,
    packedTele4, List.append_assoc]

theorem packedTele4_length (dc : Nat) (ip : List Nat) (p : Nat) (key : List Nat)
    (hip : ip.length = 4) (hk : key.length = 256) :
    (packedTele4 dc ip p key).length = 263 := by
  simp [packedTele4, beBytes_length, hip, hk]

theorem packedTele4_lt (dc : Nat) (ip : List Nat) (p : Nat) (key : List Nat)
    (hdc : dc < 256) (hipb : ∀ x ∈ ip, x < 256) (hkb : ∀ x ∈ key, x < 256) :
    ∀ x ∈ packedTele4 dc ip p key, x < 256 := by
  intro x hx
  simp only [packedTele4, List.mem_append, List.mem_singleton] at hx
  rcases hx with ((hx | hx) | hx) | hx
  · omega
  · exact hipb x hx
  · exact beBytes_lt 2 p x hx
  · exact hkb x hx

/-- Decoding a Telethon string built over the 4-byte-ip layout recovers the
packed fields, whatever the leading version character was. -/
theorem tele_roundtrip_core (c : Char) (dc p : Nat) (ip key : List Nat)
    (hdc : dc < 256) (hp : p < 2 ^ 16) (hip : ip.length = 4) (hk : key.length = 256)
    (hipb : ∀ x ∈ ip, x < 256) (hkb : ∀ x ∈ key, x < 256) :
    teleFromString (c :: b64e (packedTele4 dc ip p key)) =
      .ok ⟨dc, key, some ip, some p, none, none, none⟩ := by
  have hPlen : (packedTele4 dc ip p key).length = 263 :=
    packedTele4_length dc ip p key hip hk
  have hPlt : ∀ x ∈ packedTele4 dc ip p key, x < 256 :=
    packedTele4_lt dc ip p key hdc hipb hkb
  have hs352 : (b64e (packedTele4 dc ip p key)).length = 352 := by
    rw [b64e_length, hPlen]
  have hbd : b64d (b64e (packedTele4 dc ip p key)) = some (packedTele4 dc ip p key) :=
    b64d_b64e _ hPlt
  have hsz : sizedVals (teleFmt 4) [.num dc, .bytes ip, .num p, .bytes key] := by
    simp [teleFmt, sizedVals, hip, hk]
  have hunpack : unpackFields (teleFmt 4) (packedTele4 dc ip p key) =
      some [.num dc, .bytes ip, .num p, .bytes key] :=
    unpack_pack _ _ _ (pack_tele4 dc p ip key hdc hp hip hk) hsz
  rw [teleFromString]
  simp only [List.drop_one, List.tail_cons]
  rw [hbd]
  dsimp only
  rw [hs352]
  norm_num
  rw [hunpack]

theorem teleEncodeCore_head (r : TeleRec) (s : List Char)
    (h : teleEncodeCore r = .ok s) : s.head? = some '1' := by
  rw [teleEncodeCore] at h
  cases hsa : r.server_address with
  | none => rw [hsa] at h; simp at h
  | some ip =>
    rw [hsa] at h
    dsimp only at h
    by_cases hip : ip.length = 4 ∨ ip.length = 16
    · rw [if_pos hip] at h
      cases hp : r.port with
      | none => rw [hp] at h; simp at h
      | some p =>
        rw [hp] at h
        dsimp only at h
        cases hpk : packFields (teleFmt ip.length)
            [.num r.dc_id, .bytes ip, .num p, .bytes r.auth_key] with
        | none => rw [hpk] at h; simp at h
        | some packed =>
          rw [hpk] at h
          dsimp only at h
          have hs : '1' :: b64e packed = s := by
            simpa using h
          rw [← hs]
          rfl
    · rw [if_neg hip] at h
      simp at h

/-- C8 (amended: when `server_address` is unset, `TeleSession.to_string`
resolves the endpoint from the static table always under the *production*
key — the `DataCenter` call hardcodes the test flag to `False`, the record
carries no test-network field at all, and `SessionManager.telethon` drops
`test_mode` — and embeds that address and port in the emitted string). -/
theorem c8_default_endpoint :
    (∀ (T : DcTable) (r : TeleRec), r.server_address = none →
      r.dc_id < 256 → r.auth_key.length = 256 → (∀ x ∈ r.auth_key, x < 256) →
      (T r.dc_id false).1.length = 4 → (∀ x ∈ (T r.dc_id false).1, x < 256) →
      (T r.dc_id false).2 < 2 ^ 16 →
      Except.map teleFromString (teleToString T r).1 =
        .ok (.ok ⟨r.dc_id, r.auth_key, some (T r.dc_id false).1,
          some (T r.dc_id false).2, none, none, none⟩)) ∧
    (∀ (T : DcTable) (m m' : ManagerRec), m.dc_id = m'.dc_id →
      m.auth_key = m'.auth_key →
      managerToTelethonString T m = managerToTelethonString T m') := by
  constructor
  · intro T r hsa hdc hk hkb hip hipb hp
    rw [teleToString, hsa]
    dsimp only
    rw [teleEncodeCore]
    dsimp only
    rw [hip]
    norm_num
    rw [pack_tele4 r.dc_id (T r.dc_id false).2 (T r.dc_id false).1 r.auth_key
      hdc hp hip hk]
    dsimp only [Except.map]
    rw [tele_roundtrip_core '1' r.dc_id (T r.dc_id false).2 (T r.dc_id false).1
      r.auth_key hdc hp hip hk hipb hkb]
  · intro T m m' h1 h2
    simp [managerToTelethonString, managerTelethon, h1, h2]

set_option maxRecDepth 20000 in
/-- C8 witness: a record with dc_id 2 and no endpoint, encoded under a
concrete table, embeds that table's production entry for dc 2. -/
theorem c8_witness :
    Except.map teleFromString (teleToString Tw rC8).1 =
      .ok (.ok ⟨2, List.replicate 256 7, some [9, 8, 7, 6], some 443, none, none, none⟩) :=
  c8_default_endpoint.1 Tw rC8 rfl (by decide) rfl
    (replicate_lt 256 7 256 (by decide)) (by decide) (by decide) (by decide)

set_option maxRecDepth 200000 in
/-- C8 counterexample: the claim keys the lookup on `(dc_id, test_network)`
— test defaults when the flag is true — but a manager with `test_mode =
true` still gets the *production* entry embedded: the emitted string decodes
to the production address/port, not the test ones. -/
theorem c8_counterexample :
    mC8.test_mode = true ∧
    Except.map teleFromString (managerToTelethonString Tw mC8) =
      .ok (.ok ⟨2, List.replicate 256 7, some [9, 8, 7, 6], some 443, none, none, none⟩) ∧
    Tw 2 true ≠ ([9, 8, 7, 6], 443) := by
  refine ⟨rfl, ?_, by decide⟩
  show Except.map teleFromString (teleToString Tw (managerTelethon mC8)).1 = _
  rw [show managerTelethon mC8 =
    (⟨2, List.replicate 256 7, none, none, none, none, none⟩ : TeleRec) from rfl]
  rw [teleToString]
  dsimp only
  rw [show Tw 2 false = ([9, 8, 7, 6], 443) from rfl]
  rw [teleEncodeCore]
  dsimp only
  norm_num
  rw [pack_tele4 2 443 [9, 8, 7, 6] (List.replicate 256 7) (by decide) (by decide)
    rfl rfl]
  dsimp only [Except.map]
  rw [tele_roundtrip_core '1' 2 443 [9, 8, 7, 6] (List.replicate 256 7) (by decide)
    (by decide) rfl rfl (by decide) (replicate_lt 256 7 256 (by decide))]

/-- C9 (amended: `TeleSession.to_string` and `to_file` *do* mutate the
record they encode — when `server_address` (for `to_string`) or
`server_address`/`port` (for `to_file`) is unset, the resolved default
endpoint is stored back onto the record; when both are already set the
record is unchanged, and `dc_id`, `auth_key`, `takeout_id`, `user_id`,
`phone_number` are never touched). -/
theorem c9_encode_mutation :
    (∀ (T : DcTable) (r : TeleRec), r.server_address ≠ none →
      (teleToString T r).2 = r) ∧
    (∀ (T : DcTable) (r : TeleRec), r.server_address ≠ none → r.port ≠ none →
      (teleToFile T r).2 = r) ∧
    (∀ (T : DcTable) (r : TeleRec),
      (teleToString T r).2.dc_id = r.dc_id ∧
      (teleToString T r).2.auth_key = r.auth_key ∧
      (teleToString T r).2.takeout_id = r.takeout_id ∧
      (teleToString T r).2.user_id = r.user_id ∧
      (teleToString T r).2.phone_number = r.phone_number) ∧
    (∀ (T : DcTable) (r : TeleRec),
      (teleToFile T r).2.dc_id = r.dc_id ∧
      (teleToFile T r).2.auth_key = r.auth_key ∧
      (teleToFile T r).2.takeout_id = r.takeout_id ∧
      (teleToFile T r).2.user_id = r.user_id ∧
      (teleToFile T r).2.phone_number = r.phone_number) := by
  refine ⟨fun T r h => ?_, fun T r h1 h2 => ?_, fun T r => ?_, fun T r => ?_⟩
  · cases hsa : r.server_address with
    | none => exact absurd hsa h
    | some a => rw [teleToString, hsa]
  · have hcond : ¬(r.server_address = none ∨ r.port = none) := by
      simp [h1, h2]
    rw [teleToFile, if_neg hcond]
    cases hsa : r.server_address with
    | none => exact absurd hsa h1
    | some a =>
      cases hp : r.port with
      | none => exact absurd hp h2
      | some p => rfl
  · cases hsa : r.server_address with
    | none => rw [teleToString, hsa]; simp
    | some a => rw [teleToString, hsa]; simp
  · by_cases hcond : r.server_address = none ∨ r.port = none
    · rw [teleToFile, if_pos hcond]
      dsimp only
      simp
    · rw [teleToFile, if_neg hcond]
      cases hsa : r.server_address with
      | none => simp at hcond; simp [hcond] at hsa
      | some a =>
        cases hp : r.port with
        | none => simp [hsa, hp] at hcond
        | some p => simp

/-- C9 counterexample: encoding this record changes it — `to_string` stores
the resolved default endpoint back onto the record it consumed. -/
theorem c9_counterexample :
    (teleToString Tw rC9mut).2 ≠ rC9mut ∧
    (teleToString Tw rC9mut).2.server_address = some [9, 8, 7, 6] ∧
    rC9mut.server_address = none := by
  refine ⟨?_, rfl, rfl⟩
  intro h
  have h2 : rC9mut.server_address = some [9, 8, 7, 6] := by
    rw [← h]
    exact rfl
  simp [rC9mut] at h2

/-- C9 witness: with the endpoint already set, `to_string` leaves the
record unchanged. -/
theorem c9_witness : (teleToString Tw rC9set).2 = rC9set :=
  c9_encode_mutation.1 Tw rC9set (by simp [rC9set])

/-- C10: `TeleSession.from_string` never inspects the leading version
character — decoding `c + p` behaves identically to decoding `"1" + p` for
every character `c` — even though `to_string` always emits the fixed
version character `'1'`. -/
theorem c10_version_char :
    (∀ (c : Char) (p : List Char), teleFromString (c :: p) = teleFromString ('1' :: p)) ∧
    (∀ (T : DcTable) (r : TeleRec) (s : List Char),
      (teleToString T r).1 = .ok s → s.head? = some '1') := by
  constructor
  · intro c p
    simp only [teleFromString, List.drop_one, List.tail_cons]
  · intro T r s h
    cases hsa : r.server_address with
    | none =>
      rw [teleToString, hsa] at h
      dsimp only at h
      exact teleEncodeCore_head _ _ h
    | some a =>
      rw [teleToString, hsa] at h
      dsimp only at h
      exact teleEncodeCore_head _ _ h

set_option maxRecDepth 200000 in
/-- C10 witness: the encoder's output at a concrete record starts with the
version character. -/
theorem c10_witness : (teleToString Tw rC10).1 = .ok sC10 ∧ sC10.head? = some '1' :=
  ⟨by decide, c10_version_char.2 Tw rC10 sC10 (by decide)⟩

/-- C4 (amended: restricted to the pyrogram backend, whose `validate`
demands exact set equality of table names and of every expected table's
column names — so a missing column or an extra table is rejected; the
kurigram backend's `validate` only demands that the expected table names be
a subset of the file's and that the expected `sessions` columns be a subset
of the file's `sessions` columns, so extra tables/columns pass and no other
table's columns are inspected at all, see the counterexample). -/
theorem c4_schema_validation :
    (∀ f : PyroDbFile, pyroFromFile (some f) = .ok (recOfRowA f.row) ↔
      ((∀ t ∈ tableNames f.schema, t ∈ tableNames pyroTABLES) ∧
       (∀ t ∈ tableNames pyroTABLES, t ∈ tableNames f.schema) ∧
       (∀ p ∈ pyroTABLES, (∀ c ∈ p.2, c ∈ schemaCols f.schema p.1) ∧
         (∀ c ∈ schemaCols f.schema p.1, c ∈ p.2)))) ∧
    (∀ f : KuriDbFile, kuriFromFile (some f) = .ok (kuriRecOfRow f.row) ↔
      ((∀ t ∈ kuriTableNamesReq, t ∈ tableNames f.schema) ∧
       (∀ c ∈ kuriSessionsColsReq, c ∈ schemaCols f.schema "sessions"))) := by
  constructor
  · intro f
    have hgate : pyroFromFile (some f) = .ok (recOfRowA f.row) ↔
        pyroValidateSchema f.schema = true := by
      rw [pyroFromFile]
      by_cases hv : pyroValidateSchema f.schema <;> simp [hv]
    rw [hgate, pyroValidateSchema]
    simp only [Bool.and_eq_true, List.all_eq_true, listSetEq, List.elem_iff,
      List.contains]
    constructor
    · rintro ⟨⟨h1, h2⟩, h3⟩
      exact ⟨h1, h2, fun p hp => ⟨(h3 p hp).1, (h3 p hp).2⟩⟩
    · rintro ⟨h1, h2, h3⟩
      exact ⟨⟨h1, h2⟩, fun p hp => ⟨(h3 p hp).1, (h3 p hp).2⟩⟩
  · intro f
    have hgate : kuriFromFile (some f) = .ok (kuriRecOfRow f.row) ↔
        kuriValidate (some f) = true := by
      rw [kuriFromFile]
      by_cases hv : kuriValidate (some f) <;> simp [hv]
    rw [hgate, kuriValidate]
    simp only [Bool.and_eq_true, List.all_eq_true, List.elem_iff, List.contains]

set_option maxRecDepth 20000 in
/-- C4 witness: a file whose schema matches the pyrogram backend's expected
tables and columns exactly decodes successfully. -/
theorem c4_witness : pyroFromFile (some fileAGood) = .ok (recOfRowA fileAGood.row) :=
  (c4_schema_validation.1 fileAGood).mpr (by decide)

set_option maxRecDepth 20000 in
/-- C4 counterexample: the claim demands that a file containing one extra
table be rejected, but the kurigram backend's `validate` accepts this file
and `from_file` returns a record. -/
theorem c4_counterexample :
    "extra_table" ∈ tableNames kuriFileExtra.schema ∧
    "extra_table" ∉ kuriTableNamesReq ∧
    kuriValidate (some kuriFileExtra) = true ∧
    kuriFromFile (some kuriFileExtra) = .ok (kuriRecOfRow kuriFileExtra.row) := by
  refine ⟨by decide, by decide, by decide, by decide⟩

/-- C5 (amended: `TDataSession.to_folder` with an unset `user_id` does fail
with a `ValueError` before the tdata container is written, but only *after*
creating the target directory with `mkdir` — so a directory does appear on
this failure path; the manager's `tdata` accessor, in contrast, fails
before any I/O). -/
theorem c5_tdata_user_id_gate :
    (∀ r p, r.user_id = none →
      tdataToFolder r p = ([IOEvent.mkdir p], .error .userIdNone)) ∧
    (∀ r p e, e ∈ (tdataToFolder r p).1 →
      e = IOEvent.mkdir p ∨ (r.user_id ≠ none ∧ e = IOEvent.saveTData (p ++ "/tdata"))) ∧
    (∀ m : ManagerRec, m.user_id = none → managerTdata m = .error .userIdRequired) := by
  refine ⟨fun r p h => ?_, fun r p e he => ?_, fun m h => ?_⟩
  · simp [tdataToFolder, h]
  · rw [tdataToFolder] at he
    by_cases h : r.user_id.isNone
    · rw [if_pos h] at he
      simp at he
      simp [he]
    · rw [if_neg h] at he
      simp at he
      rcases he with he | he
      · simp [he]
      · right
        refine ⟨?_, he⟩
        simpa [Option.isNone_iff_eq_none] using h
  · rw [managerTdata, h]

/-- C5 counterexample: on the failure path the event trace already contains
the `mkdir` of the target path — a directory *is* created before the
`ValueError`, contradicting the claim's "no directory or file is created".
-/
theorem c5_counterexample :
    tdataToFolder rNoUid "target" = ([IOEvent.mkdir "target"], .error .userIdNone) ∧
    (tdataToFolder rNoUid "target").1 ≠ [] := by
  constructor
  · rfl
  · have h1 : (tdataToFolder rNoUid "target").1 = [IOEvent.mkdir "target"] := rfl
    rw [h1]
    simp

/-- C5 witness: the gate theorem applied at a concrete record and path. -/
theorem c5_witness :
    tdataToFolder ⟨1, [], none⟩ "out" = ([IOEvent.mkdir "out"], .error .userIdNone) :=
  c5_tdata_user_id_gate.1 ⟨1, [], none⟩ "out" rfl

/-- C6 (amended: `TeleSession.from_file` never queries the `entities`
table; whatever entity rows the file holds, the returned record always has
`user_id` and `phone_number` unset, without error, while the core fields
come from the loaded session; a session with no/empty auth key raises the
validation error). -/
theorem c6_from_file_entities :
    (∀ f r, teleFromFile f = .ok r →
      r.user_id = none ∧ r.phone_number = none ∧ r.dc_id = f.core.dc_id ∧
      r.auth_key = f.core.auth_key.getD [] ∧
      r.server_address = f.core.server_address ∧ r.port = f.core.port ∧
      r.takeout_id = f.core.takeout_id) ∧
    (∀ f : TeleDbFile, f.core.auth_key = none ∨ f.core.auth_key = some [] →
      teleFromFile f = .error .noAuthKey) := by
  constructor
  · intro f r h
    rw [teleFromFile] at h
    cases hk : f.core.auth_key with
    | none => rw [hk] at h; simp at h
    | some k =>
      rw [hk] at h
      dsimp only at h
      by_cases hke : k.isEmpty
      · rw [if_pos hke] at h
        simp at h
      · rw [if_neg hke] at h
        simp at h
        rw [← h]
        simp
  · intro f h
    rcases h with h | h
    · rw [teleFromFile, h]
    · rw [teleFromFile, h]
      simp

/-- C6 counterexample: the file has a matching entity row, yet `from_file`
returns the record with `user_id` and `phone_number` unset instead of
filling them in from the `entities` table. -/
theorem c6_counterexample :
    fEnt.entities ≠ [] ∧
    teleFromFile fEnt =
      .ok ⟨2, List.replicate 256 7, some [5, 6, 7, 8], some 443, none, none, none⟩ := by
  constructor
  · have h1 : fEnt.entities = [⟨777, some 15550001122⟩] := rfl
    rw [h1]
    simp
  · rfl

set_option maxRecDepth 20000 in
/-- C6 witness: the behaviour theorem applied at a concrete file. -/
theorem c6_witness :
    teleFromFile fNoEnt = .ok ⟨4, List.replicate 256 8, none, none, some 55, none, none⟩ ∧
    (⟨4, List.replicate 256 8, none, none, some 55, none, none⟩ : TeleRec).user_id = none :=
  ⟨by decide, (c6_from_file_entities.1 fNoEnt
    ⟨4, List.replicate 256 8, none, none, some 55, none, none⟩ (by decide)).1⟩

set_option maxRecDepth 20000 in
/-- C7 witness at a concrete record. -/
theorem c7_witness :
    pyroToString rC7 = some (stripEq (b64e (packedCurrent 3 0 true (List.replicate 256 9) 0 false))) ∧
    pyroRoundtrip rC7 = some (.ok ⟨3, List.replicate 256 9, some 0, false, true, some 0⟩) :=
  c7_zero_sentinel 3 (List.replicate 256 9) true false (by decide) rfl
    (replicate_lt 256 9 256 (by decide))

end TGC
